import Mathlib

/-!
Verification of the OpenTelemetry Collector service lifecycle
(`service/service.go`, here `src/unnamed/part_000`) and the config
provider (`src/unnamed/part_001`) against the repository's
specification.

The Go code is shallowly embedded: every lifecycle method of
`Application` becomes a Lean function over an explicit "world" that
records, for each configured component, the outcomes that in Go come
from external calls (factory construction results, `Start`/`Shutdown`
errors, ...).  Each function additionally returns the ordered log of
component invocations it performs (`Event`s), so ordering claims can be
stated about the log.  Errors are strings built exactly the way the Go
code builds them with `errors.Errorf` / `errors.Wrapf` (pkg/errors
renders `Wrapf(err, msg)` as `msg ++ ": " ++ err`).

The internals of the pipeline builder (`service/builder`) and of
`oterr.CombineErrors` are not part of the staged sources; the few
definitions for them are modelled from the spec and say so in their
doc comments.  Everything else is translated from the source files.
-/

namespace OtelService

/-- Error values: the rendered error string, as produced by
`errors.Errorf` and propagated through `errors.Wrapf`. -/
abbrev Err := String

/-- The rendering of `errors.Wrapf(err, msg)` from pkg/errors:
the wrapping message, a colon, then the wrapped error. -/
def wrapErr (msg : String) (e : Err) : Err := msg ++ ": " ++ e

/-- The rendering of a Go `%q` verb on a name. -/
def quoteName (n : String) : String := "\"" ++ n ++ "\""

/-- Which of the three select arms of `runAndWaitForShutdownEvent`
fired: an asynchronous fatal error, an OS signal, or the test stop
channel. -/
inductive Trigger where
  | fatalError (e : Err)
  | osSignal (s : String)
  | stopTest
deriving DecidableEq, Repr

/-- One entry of the ordered invocation log: each constructor records
one call the `Application` makes into a component. -/
inductive Event where
  | extCreate (n : String)
  | extStart (n : String)
  | extReady (n : String)
  | extNotReady (n : String)
  | extShutdown (n : String)
  | expStart (n : String)
  | procStart (n : String)
  | recvStart (n : String)
  | recvStop (n : String)
  | procStop (n : String)
  | expStop (n : String)
  | runTrigger (t : Trigger)
deriving DecidableEq, Repr

/-- Modelled from the spec: `oterr.CombineErrors` (not among the staged
sources) combines a non-empty list of collected errors into one
aggregate error listing every underlying failure. -/
def combineErrors (errs : List Err) : Err :=
  "[" ++ String.intercalate "; " errs ++ "]"

/-- The recurring Go pattern `if len(errs) != 0 { return CombineErrors(errs) };
return nil`. -/
def combineIfAny (errs : List Err) : Option Err :=
  if errs.isEmpty then none else some (combineErrors errs)

/-! ## Extensions (`setupExtensions`, readiness notification, shutdown) -/

/-- Behaviour of a built `extension.ServiceExtension` instance: whether
it implements `extension.PipelineWatcher`, and the outcomes of its
`Ready`, `NotReady` and `Shutdown` calls. -/
structure ExtBeh where
  isWatcher : Bool
  readyErr : Option Err
  notReadyErr : Option Err
  shutdownErr : Option Err
deriving DecidableEq, Repr

/-- The world's data for one configured extension
(`app.config.Extensions[name]` together with what its factory and the
built instance will do): the declared type, the `CreateExtension`
outcome, whether the factory returns a nil instance, the `Start`
outcome, and the built instance's behaviour. -/
structure ExtCfg where
  typ : String
  createErr : Option Err
  createNil : Bool
  startErr : Option Err
  beh : ExtBeh
deriving DecidableEq, Repr

/-- A started extension as retained in `app.extensions`, tagged with
the service-list name it was built for (the code recovers that name as
`app.config.Service.Extensions[i]`, which coincides because extensions
are appended in declaration order). -/
structure Ext where
  name : String
  beh : ExtBeh
deriving DecidableEq, Repr

/-- The inputs `setupExtensions` reads: the ordered
`Service.Extensions` list, the `Extensions` configuration map (as an
association list) and the set of extension types that have a factory
in `app.factories.Extensions`. -/
structure ExtWorld where
  serviceExtensions : List String
  extConfigs : List (String × ExtCfg)
  factoryTypes : List String
deriving Repr

/-- Error message of `errors.Errorf("extension %q is not configured", name)`. -/
def errExtNotConfigured (n : String) : Err :=
  "extension " ++ quoteName n ++ " is not configured"

/-- Error message of `errors.Errorf("extension factory for type %q is not configured", t)`. -/
def errExtFactoryNotConfigured (t : String) : Err :=
  "extension factory for type " ++ quoteName t ++ " is not configured"

/-- Error message of `errors.Wrapf(err, "failed to create extension %q", name)`. -/
def errExtCreateFailed (n : String) (e : Err) : Err :=
  wrapErr ("failed to create extension " ++ quoteName n) e

/-- Error message of `errors.Errorf("factory for %q produced a nil extension", name)`. -/
def errExtNil (n : String) : Err :=
  "factory for " ++ quoteName n ++ " produced a nil extension"

/-- Error message of `errors.Wrapf(err, "error starting extension %q", name)`. -/
def errExtStartFailed (n : String) (e : Err) : Err :=
  wrapErr ("error starting extension " ++ quoteName n) e

/-- One iteration of the `setupExtensions` loop body for the extension
named `n`: configuration lookup, factory lookup, `CreateExtension`,
the nil check, and `Start`; returns the invocation events it performs
and either the built extension or the loop's error. -/
def processExt (w : ExtWorld) (n : String) : List Event × Except Err Ext :=
  match w.extConfigs.lookup n with
  | none => ([], .error (errExtNotConfigured n))
  | some cfg =>
    if w.factoryTypes.contains cfg.typ then
      match cfg.createErr with
      | some e => ([Event.extCreate n], .error (errExtCreateFailed n e))
      | none =>
        if cfg.createNil then
          ([Event.extCreate n], .error (errExtNil n))
        else
          match cfg.startErr with
          | some e =>
            ([Event.extCreate n, Event.extStart n], .error (errExtStartFailed n e))
          | none =>
            ([Event.extCreate n, Event.extStart n], .ok { name := n, beh := cfg.beh })
    else
      ([], .error (errExtFactoryNotConfigured cfg.typ))

/-- The `for _, extName := range app.config.Service.Extensions` loop of
`setupExtensions`: on the first failing extension the loop returns that
error; extensions appended to `app.extensions` before the failure stay
appended. -/
def setupExtensionsLoop (w : ExtWorld) : List String → List Event × List Ext × Option Err
  | [] => ([], [], none)
  | n :: rest =>
    match processExt w n with
    | (evs, .error e) => (evs, [], some e)
    | (evs, .ok ext) =>
      let r := setupExtensionsLoop w rest
      (evs ++ r.1, ext :: r.2.1, r.2.2)

/-- Embedding of `Application.setupExtensions`: returns the invocation
log, the final `app.extensions` slice and the returned error. -/
def setupExtensions (w : ExtWorld) : List Event × List Ext × Option Err :=
  setupExtensionsLoop w w.serviceExtensions

/-- Wrapping message of `notifyPipelineReady` for the extension named `n`. -/
def readyFailMsg (n : String) : String :=
  "error notifying extension " ++ quoteName n ++ " that the pipeline was started"

/-- Wrapping message of `notifyPipelineNotReady` for the extension named `n`. -/
def notReadyFailMsg (n : String) : String :=
  "error notifying extension " ++ quoteName n ++ " that the pipeline was shutdown"

/-- Wrapping message of `shutdownExtensions` for the extension named `n`. -/
def extShutdownFailMsg (n : String) : String :=
  "error shutting down extension " ++ quoteName n

/-- Embedding of `Application.notifyPipelineReady`: calls `Ready` on
each pipeline-watching extension in order and aborts on the first
failure, wrapping it with the extension's name. -/
def notifyPipelineReady : List Ext → List Event × Option Err
  | [] => ([], none)
  | x :: rest =>
    if x.beh.isWatcher then
      match x.beh.readyErr with
      | some e => ([Event.extReady x.name], some (wrapErr (readyFailMsg x.name) e))
      | none =>
        let r := notifyPipelineReady rest
        (Event.extReady x.name :: r.1, r.2)
    else
      notifyPipelineReady rest

/-- The body of the reverse `for` loop of `notifyPipelineNotReady`,
written over the already-reversed extension list: calls `NotReady` on
every pipeline watcher and collects the wrapped errors. -/
def notReadyLoop : List Ext → List Event × List Err
  | [] => ([], [])
  | x :: rest =>
    let r := notReadyLoop rest
    if x.beh.isWatcher then
      match x.beh.notReadyErr with
      | some e => (Event.extNotReady x.name :: r.1, wrapErr (notReadyFailMsg x.name) e :: r.2)
      | none => (Event.extNotReady x.name :: r.1, r.2)
    else
      r

/-- Embedding of `Application.notifyPipelineNotReady`: notifies in
reverse order, collecting rather than short-circuiting errors. -/
def notifyPipelineNotReady (exts : List Ext) : List Event × Option Err :=
  let r := notReadyLoop exts.reverse
  (r.1, combineIfAny r.2)

/-- The body of the reverse `for` loop of `shutdownExtensions`, written
over the already-reversed extension list: calls `Shutdown` on every
extension and collects the wrapped errors. -/
def shutdownExtLoop : List Ext → List Event × List Err
  | [] => ([], [])
  | x :: rest =>
    let r := shutdownExtLoop rest
    match x.beh.shutdownErr with
    | some e => (Event.extShutdown x.name :: r.1, wrapErr (extShutdownFailMsg x.name) e :: r.2)
    | none => (Event.extShutdown x.name :: r.1, r.2)

/-- Embedding of `Application.shutdownExtensions`: shuts down in
reverse order, collecting rather than short-circuiting errors. -/
def shutdownExtensions (exts : List Ext) : List Event × Option Err :=
  let r := shutdownExtLoop exts.reverse
  (r.1, combineIfAny r.2)

/-! ## Pipelines (`setupPipelines`, `shutdownPipelines`) -/

/-- The inputs `setupPipelines` / `shutdownPipelines` act on: the
component names of each stage, the builder `Build` outcomes, the
`StartAll` / `StartProcessors` outcomes (failure after invoking `Start`
on some prefix), and the stage outcomes of the three stop calls. -/
structure PipeWorld where
  exporters : List String
  processors : List String
  receivers : List String
  buildExportersErr : Option Err
  buildPipelinesErr : Option Err
  buildReceiversErr : Option Err
  startExportersFail : Option (Nat × Err)
  startProcessorsFail : Option (Nat × Err)
  startReceiversFail : Option (Nat × Err)
  stopReceiversErr : Option Err
  stopProcessorsErr : Option Err
  stopExportersErr : Option Err
deriving Repr

/-- Modelled from the spec: the builder's `StartAll` /
`StartProcessors` (in `service/builder`, not among the staged sources)
starts each component of its stage in order and aborts the stage on the
first failing `Start`, having invoked `Start` on the components up to
and including the failing one. -/
def startStage (mk : String → Event) (comps : List String) :
    Option (Nat × Err) → List Event × Option Err
  | none => (comps.map mk, none)
  | some (k, e) => ((comps.take (k + 1)).map mk, some e)

/-- Modelled from the spec: the builder's `StopAll` /
`ShutdownProcessors` / `ShutdownAll` (in `service/builder`, not among
the staged sources) invokes the stop call on every component of its
stage, collecting failures into the stage's returned error. -/
def stopStage (mk : String → Event) (comps : List String) (stageErr : Option Err) :
    List Event × Option Err :=
  (comps.map mk, stageErr)

/-- Embedding of `Application.setupPipelines`: builds and starts
exporters, then pipelines/processors, then receivers, aborting on the
first failing step with a wrapped error. -/
def setupPipelines (w : PipeWorld) : List Event × Option Err :=
  match w.buildExportersErr with
  | some e => ([], some (wrapErr "cannot build exporters" e))
  | none =>
    match startStage Event.expStart w.exporters w.startExportersFail with
    | (evs1, some e) => (evs1, some (wrapErr "cannot start exporters" e))
    | (evs1, none) =>
      match w.buildPipelinesErr with
      | some e => (evs1, some (wrapErr "cannot build pipelines" e))
      | none =>
        match startStage Event.procStart w.processors w.startProcessorsFail with
        | (evs2, some e) => (evs1 ++ evs2, some (wrapErr "cannot start processors" e))
        | (evs2, none) =>
          match w.buildReceiversErr with
          | some e => (evs1 ++ evs2, some (wrapErr "cannot build receivers" e))
          | none =>
            match startStage Event.recvStart w.receivers w.startReceiversFail with
            | (evs3, some e) => (evs1 ++ evs2 ++ evs3, some (wrapErr "cannot start receivers" e))
            | (evs3, none) => (evs1 ++ evs2 ++ evs3, none)

/-- Embedding of `Application.shutdownPipelines`: stops receivers, then
processors, then exporters, collecting the wrapped stage errors and
combining them at the end. -/
def shutdownPipelines (w : PipeWorld) : List Event × Option Err :=
  let r1 := stopStage Event.recvStop w.receivers w.stopReceiversErr
  let r2 := stopStage Event.procStop w.processors w.stopProcessorsErr
  let r3 := stopStage Event.expStop w.exporters w.stopExportersErr
  let errs := (r1.2.map (wrapErr "failed to stop receivers")).toList
      ++ (r2.2.map (wrapErr "failed to shutdown processors")).toList
      ++ (r3.2.map (wrapErr "failed to shutdown exporters")).toList
  (r1.1 ++ r2.1 ++ r3.1, combineIfAny errs)

/-! ## The application (`setupConfigurationComponents`, `execute`) -/

/-- The inputs `execute` acts on beyond the extension and pipeline
worlds: the telemetry-setup outcome and the `config.Load` outcome. -/
structure World where
  telemetryErr : Option Err
  configLoadErr : Option Err
  ext : ExtWorld
  pipe : PipeWorld
deriving Repr

/-- Embedding of `Application.setupConfigurationComponents`: loads the
configuration, then sets up extensions, then pipelines, wrapping each
failure; returns the log, the final `app.extensions` slice and the
error. -/
def setupConfigurationComponents (w : World) : List Event × List Ext × Option Err :=
  match w.configLoadErr with
  | some e => ([], [], some (wrapErr "cannot load configuration" e))
  | none =>
    match setupExtensions w.ext with
    | (evs, exts, some e) => (evs, exts, some (wrapErr "cannot setup extensions" e))
    | (evs, exts, none) =>
      match setupPipelines w.pipe with
      | (evs2, some e) => (evs ++ evs2, exts, some (wrapErr "cannot setup pipelines" e))
      | (evs2, none) => (evs ++ evs2, exts, none)

/-- Embedding of `Application.execute`, with the blocking
`runAndWaitForShutdownEvent` select resolved by the given `Trigger`
(which select arm fired).  Setup failures return at once; once the
shutdown sequence begins, all its errors are accumulated and combined. -/
def execute (w : World) (t : Trigger) : List Event × Option Err :=
  match w.telemetryErr with
  | some e => ([], some (wrapErr "failed to initialize telemetry" e))
  | none =>
    match setupConfigurationComponents w with
    | (evs, _, some e) => (evs, some e)
    | (evs, exts, none) =>
      match notifyPipelineReady exts with
      | (evs2, some e) => (evs ++ evs2, some e)
      | (evs2, none) =>
        let rNot := notifyPipelineNotReady exts
        let rPipe := shutdownPipelines w.pipe
        let rExt := shutdownExtensions exts
        let errs :=
          (rNot.2.map (wrapErr "failed to notify that pipeline is not ready")).toList
          ++ (rPipe.2.map (wrapErr "failed to shutdown pipelines")).toList
          ++ (rExt.2.map (wrapErr "failed to shutdown extensions")).toList
        (evs ++ evs2 ++ [Event.runTrigger t] ++ rNot.1 ++ rPipe.1 ++ rExt.1,
          combineIfAny errs)

/-! ## The config provider (`src/unnamed/part_001`) -/

/-- The two byte-snapshot fields of `configProvider`; `none` is Go's
nil slice. -/
structure CPState where
  lastResolvedConfig : Option (List UInt8)
  lastKnownGoodConfig : Option (List UInt8)
deriving DecidableEq, Repr

/-- The outcomes of the external calls one `configProvider.Get`
performs: `mapResolver.Resolve`, `retMap.MarshalToYAML`,
`configunmarshaler.Unmarshal` and `cfg.Validate`.  The unmarshalled
service configuration itself is abstracted to an opaque tag. -/
structure GetWorld where
  resolveRes : Except Err Unit
  marshalRes : Except Err (List UInt8)
  unmarshalRes : Except Err Nat
  validateErr : Option Err
deriving Repr

/-- Embedding of `configProvider.Get`: clears `lastResolvedConfig`
first, resolves, caches the marshalled snapshot when marshalling
succeeds (a marshal failure is deliberately swallowed), then
unmarshals and validates. -/
def cpGet (st : CPState) (w : GetWorld) : CPState × Except Err Nat :=
  let st1 : CPState := { st with lastResolvedConfig := none }
  match w.resolveRes with
  | .error e => (st1, .error (wrapErr "cannot resolve the configuration" e))
  | .ok _ =>
    let st2 : CPState :=
      match w.marshalRes with
      | .ok b => { st1 with lastResolvedConfig := some b }
      | .error _ => st1
    match w.unmarshalRes with
    | .error e => (st2, .error (wrapErr "cannot unmarshal the configuration" e))
    | .ok cfg =>
      match w.validateErr with
      | some e => (st2, .error (wrapErr "invalid configuration" e))
      | none => (st2, .ok cfg)

/-- Embedding of `configProvider.ConfigUpdateFailed`: only forwards to
`mapResolver.ConfigUpdateFailed`; neither snapshot field changes. -/
def cpConfigUpdateFailed (st : CPState) (_e : Err) : CPState :=
  st

/-- Embedding of `configProvider.ConfigUpdateSucceeded`: promotes the
last-resolved snapshot to last-known-good. -/
def cpConfigUpdateSucceeded (st : CPState) : CPState :=
  { st with lastKnownGoodConfig := st.lastResolvedConfig }

/-! ## Event-kind predicates and log-ordering helpers -/

/-- Whether an event is an exporter `Start` invocation. -/
def Event.isExpStart : Event → Bool
  | .expStart _ => true
  | _ => false

/-- Whether an event is a processor `Start` invocation. -/
def Event.isProcStart : Event → Bool
  | .procStart _ => true
  | _ => false

/-- Whether an event is a receiver `Start` invocation. -/
def Event.isRecvStart : Event → Bool
  | .recvStart _ => true
  | _ => false

/-- Whether an event is the shutdown-trigger log entry of
`runAndWaitForShutdownEvent`. -/
def Event.isRunTrigger : Event → Bool
  | .runTrigger _ => true
  | _ => false

/-- Every event of kind `p` occurs strictly before every event of kind
`q` in the log. -/
def precedes (p q : Event → Bool) (log : List Event) : Prop :=
  ∀ i j, ∀ hi : i < log.length, ∀ hj : j < log.length,
    p (log.get ⟨i, hi⟩) = true → q (log.get ⟨j, hj⟩) = true → i < j

theorem precedes_append {p q : Event → Bool} {A B : List Event}
    (hA : ∀ e ∈ A, q e = false) (hB : ∀ e ∈ B, p e = false) :
    precedes p q (A ++ B) := by
  intro i j hi hj hp hq
  by_cases hiA : i < A.length
  · by_cases hjA : j < A.length
    · exfalso
      have hget : (A ++ B).get ⟨j, hj⟩ = A.get ⟨j, hjA⟩ := List.get_append j hjA
      rw [hget, hA (A.get ⟨j, hjA⟩) (List.get_mem A j hjA)] at hq
      exact Bool.false_ne_true hq
    · omega
  · exfalso
    have hb : i - A.length < B.length := by
      have := hi; simp [List.length_append] at this; omega
    have hget : (A ++ B).get ⟨i, hi⟩ = B.get ⟨i - A.length, hb⟩ := by
      simp only [List.get_eq_getElem]
      exact List.getElem_append_right (by omega)
    rw [hget, hB (B.get ⟨i - A.length, hb⟩) (List.get_mem B _ hb)] at hp
    exact Bool.false_ne_true hp

theorem combineIfAny_eq_none {errs : List Err} :
    combineIfAny errs = none ↔ errs = [] := by
  simp [combineIfAny, List.isEmpty_iff]

/-! ## C1: consumer-first build and start order of `setupPipelines` -/

/-- C1: for every world on which `setupPipelines` succeeds, the
invocation log is exactly the exporter `Start`s, then the processor
`Start`s, then the receiver `Start`s; hence every exporter start
precedes every processor start, and every processor start precedes
every receiver start. -/
theorem setupPipelines_consumer_first (w : PipeWorld)
    (h : (setupPipelines w).2 = none) :
    (setupPipelines w).1
      = w.exporters.map Event.expStart
          ++ (w.processors.map Event.procStart ++ w.receivers.map Event.recvStart)
    ∧ precedes Event.isExpStart Event.isProcStart (setupPipelines w).1
    ∧ precedes Event.isExpStart Event.isRecvStart (setupPipelines w).1
    ∧ precedes Event.isProcStart Event.isRecvStart (setupPipelines w).1 := by
  have hlog : (setupPipelines w).1
      = w.exporters.map Event.expStart
          ++ (w.processors.map Event.procStart ++ w.receivers.map Event.recvStart)
      := by
    cases h1 : w.buildExportersErr with
    | some e => simp [setupPipelines, h1] at h
    | none =>
      cases h2 : w.startExportersFail with
      | some ke => simp [setupPipelines, startStage, h1, h2] at h
      | none =>
        cases h3 : w.buildPipelinesErr with
        | some e => simp [setupPipelines, startStage, h1, h2, h3] at h
        | none =>
          cases h4 : w.startProcessorsFail with
          | some ke => simp [setupPipelines, startStage, h1, h2, h3, h4] at h
          | none =>
            cases h5 : w.buildReceiversErr with
            | some e => simp [setupPipelines, startStage, h1, h2, h3, h4, h5] at h
            | none =>
              cases h6 : w.startReceiversFail with
              | some ke => simp [setupPipelines, startStage, h1, h2, h3, h4, h5, h6] at h
              | none =>
                simp [setupPipelines, startStage, h1, h2, h3, h4, h5, h6]
  have hexp : ∀ e ∈ w.exporters.map Event.expStart,
      Event.isProcStart e = false ∧ Event.isRecvStart e = false := by
    intro e he
    obtain ⟨n, _, rfl⟩ := List.mem_map.mp he
    exact ⟨rfl, rfl⟩
  have hproc : ∀ e ∈ w.processors.map Event.procStart,
      Event.isExpStart e = false ∧ Event.isRecvStart e = false := by
    intro e he
    obtain ⟨n, _, rfl⟩ := List.mem_map.mp he
    exact ⟨rfl, rfl⟩
  have hrecv : ∀ e ∈ w.receivers.map Event.recvStart,
      Event.isExpStart e = false ∧ Event.isProcStart e = false := by
    intro e he
    obtain ⟨n, _, rfl⟩ := List.mem_map.mp he
    exact ⟨rfl, rfl⟩
  refine ⟨hlog, ?_, ?_, ?_⟩
  · rw [hlog]
    refine precedes_append (fun e he => (hexp e he).1) ?_
    intro e he
    rcases List.mem_append.mp he with hm | hm
    · exact (hproc e hm).1
    · exact (hrecv e hm).1
  · rw [hlog]
    refine precedes_append (fun e he => (hexp e he).2) ?_
    intro e he
    rcases List.mem_append.mp he with hm | hm
    · exact (hproc e hm).1
    · exact (hrecv e hm).1
  · rw [hlog, ← List.append_assoc]
    refine precedes_append ?_ (fun e he => (hrecv e he).2)
    intro e he
    rcases List.mem_append.mp he with hm | hm
    · exact (hexp e hm).2
    · exact (hproc e hm).2

/-- A concrete world with one exporter, one processor and one receiver
on which every build and start step succeeds. -/
def pipeOkW : PipeWorld :=
  { exporters := ["exp1"], processors := ["proc1"], receivers := ["recv1"],
    buildExportersErr := none, buildPipelinesErr := none, buildReceiversErr := none,
    startExportersFail := none, startProcessorsFail := none, startReceiversFail := none,
    stopReceiversErr := none, stopProcessorsErr := none, stopExportersErr := none }

theorem setupPipelines_consumer_first_witness :
    (setupPipelines pipeOkW).2 = none
    ∧ ((setupPipelines pipeOkW).1
          = pipeOkW.exporters.map Event.expStart
              ++ (pipeOkW.processors.map Event.procStart
                  ++ pipeOkW.receivers.map Event.recvStart)
        ∧ precedes Event.isExpStart Event.isProcStart (setupPipelines pipeOkW).1
        ∧ precedes Event.isExpStart Event.isRecvStart (setupPipelines pipeOkW).1
        ∧ precedes Event.isProcStart Event.isRecvStart (setupPipelines pipeOkW).1) :=
  ⟨rfl, setupPipelines_consumer_first pipeOkW rfl⟩

/-! ## C2: reverse-order, error-collecting `shutdownPipelines` -/

/-- C2: `shutdownPipelines` always performs all three stop stages, in
the order receivers, processors, exporters; its result is `none`
exactly when every stage returned `none`, and otherwise the
combination of the wrapped stage errors in stage order. -/
theorem shutdownPipelines_stops_reverse_collecting (w : PipeWorld) :
    (shutdownPipelines w).1
      = w.receivers.map Event.recvStop
          ++ w.processors.map Event.procStop ++ w.exporters.map Event.expStop
    ∧ ((shutdownPipelines w).2 = none ↔
        w.stopReceiversErr = none ∧ w.stopProcessorsErr = none
          ∧ w.stopExportersErr = none)
    ∧ (shutdownPipelines w).2
        = combineIfAny
            ((w.stopReceiversErr.map (wrapErr "failed to stop receivers")).toList
              ++ (w.stopProcessorsErr.map (wrapErr "failed to shutdown processors")).toList
              ++ (w.stopExportersErr.map (wrapErr "failed to shutdown exporters")).toList) := by
  refine ⟨by simp [shutdownPipelines, stopStage, List.append_assoc], ?_, rfl⟩
  cases h1 : w.stopReceiversErr <;> cases h2 : w.stopProcessorsErr <;>
    cases h3 : w.stopExportersErr <;>
    simp [shutdownPipelines, stopStage, combineIfAny, h1, h2, h3]

/-! ## C7: a failed resolve clears the cached snapshot -/

/-- C7: `Get` clears `lastResolvedConfig` before resolving, so when
resolution fails the field is nil afterwards and `Get` returns the
wrapped resolve error; no prior snapshot survives a failed resolve. -/
theorem cpGet_resolve_error_clears_snapshot (st : CPState) (w : GetWorld) (e : Err)
    (h : w.resolveRes = .error e) :
    ((cpGet st w).1).lastResolvedConfig = none
    ∧ (cpGet st w).2 = .error (wrapErr "cannot resolve the configuration" e)
    ∧ ((cpGet st w).1).lastKnownGoodConfig = st.lastKnownGoodConfig := by
  simp [cpGet, h]

theorem cpGet_resolve_error_clears_snapshot_witness :
    ((cpGet { lastResolvedConfig := some [1], lastKnownGoodConfig := some [2] }
        { resolveRes := .error "merge failed", marshalRes := .ok [],
          unmarshalRes := .ok 0, validateErr := none }).1).lastResolvedConfig = none
    ∧ (cpGet { lastResolvedConfig := some [1], lastKnownGoodConfig := some [2] }
        { resolveRes := .error "merge failed", marshalRes := .ok [],
          unmarshalRes := .ok 0, validateErr := none }).2
        = .error (wrapErr "cannot resolve the configuration" "merge failed")
    ∧ ((cpGet { lastResolvedConfig := some [1], lastKnownGoodConfig := some [2] }
        { resolveRes := .error "merge failed", marshalRes := .ok [],
          unmarshalRes := .ok 0, validateErr := none }).1).lastKnownGoodConfig
        = some [2] :=
  cpGet_resolve_error_clears_snapshot _ _ _ rfl

/-! ## C8: snapshot promotion and the failure frame -/

/-- C8: `ConfigUpdateSucceeded` sets last-known-good to the
last-resolved snapshot (leaving last-resolved unchanged), and
`ConfigUpdateFailed` changes neither snapshot field. -/
theorem configUpdate_promotion_and_frame (st : CPState) (e : Err) :
    (cpConfigUpdateSucceeded st).lastKnownGoodConfig
        = (cpConfigUpdateSucceeded st).lastResolvedConfig
    ∧ (cpConfigUpdateSucceeded st).lastResolvedConfig = st.lastResolvedConfig
    ∧ (cpConfigUpdateFailed st e).lastKnownGoodConfig = st.lastKnownGoodConfig
    ∧ cpConfigUpdateFailed st e = st :=
  ⟨rfl, rfl, rfl, rfl⟩

/-! ## C3: started extensions are not stopped when pipeline setup fails -/

/-- An extension configuration whose factory and `Start` both succeed. -/
def extOkCfg : ExtCfg :=
  { typ := "t1", createErr := none, createNil := false, startErr := none,
    beh := { isWatcher := false, readyErr := none, notReadyErr := none,
             shutdownErr := none } }

/-- A world in which the single extension `ext1` is created and started
successfully and the exporter build then fails. -/
def bugW : World :=
  { telemetryErr := none, configLoadErr := none,
    ext := { serviceExtensions := ["ext1"], extConfigs := [("ext1", extOkCfg)],
             factoryTypes := ["t1"] },
    pipe := { exporters := [], processors := [], receivers := [],
              buildExportersErr := some "exporter construction failed",
              buildPipelinesErr := none, buildReceiversErr := none,
              startExportersFail := none, startProcessorsFail := none,
              startReceiversFail := none, stopReceiversErr := none,
              stopProcessorsErr := none, stopExportersErr := none } }

/-- C3 (code bug): on `bugW`, extension `ext1` is started and pipeline
setup then fails, yet `execute` returns the error with no
`Shutdown` invocation for `ext1` anywhere in its log — the started
extension is left running, contradicting the claim. -/
theorem execute_skips_extension_shutdown_on_setup_failure :
    execute bugW Trigger.stopTest
      = ([Event.extCreate "ext1", Event.extStart "ext1"],
         some (wrapErr "cannot setup pipelines"
            (wrapErr "cannot build exporters" "exporter construction failed")))
    ∧ Event.extShutdown "ext1" ∉ (execute bugW Trigger.stopTest).1 := by
  constructor
  · rfl
  · decide

/-! ## C4: a fatal error and an OS signal trigger the identical shutdown -/

/-- C4: whichever of the fatal-error channel or the OS signal channel
unblocks `runAndWaitForShutdownEvent`, `execute` returns the same error
and performs the same invocation sequence (the logs differ only in the
trigger log entry itself). -/
theorem execute_fatalError_equiv_osSignal (w : World) (e : Err) (s : String) :
    (execute w (Trigger.fatalError e)).2 = (execute w (Trigger.osSignal s)).2
    ∧ ((execute w (Trigger.fatalError e)).1.filter fun ev => !ev.isRunTrigger)
        = ((execute w (Trigger.osSignal s)).1.filter fun ev => !ev.isRunTrigger) := by
  cases h1 : w.telemetryErr with
  | some e0 => simp [execute, h1]
  | none =>
    rcases h2 : setupConfigurationComponents w with ⟨evs, exts, r⟩
    cases r with
    | some e0 => simp [execute, h1, h2]
    | none =>
      rcases h3 : notifyPipelineReady exts with ⟨evs2, r2⟩
      cases r2 with
      | some e0 => simp [execute, h1, h2, h3]
      | none =>
        refine ⟨by simp [execute, h1, h2, h3], ?_⟩
        simp [execute, h1, h2, h3, List.filter_append, Event.isRunTrigger]

/-! ## Extension-loop characterization helpers -/

/-- Whether a `processExt` outcome is a successfully built and started
extension. -/
def isOkE : Except Err Ext → Bool
  | .ok _ => true
  | .error _ => false

/-- The invocation events of processing each of `names` successfully. -/
def okEvents (w : ExtWorld) : List String → List Event
  | [] => []
  | n :: rest => (processExt w n).1 ++ okEvents w rest

/-- The built extensions of processing each of `names`, keeping the
successful ones. -/
def okExts (w : ExtWorld) : List String → List Ext
  | [] => []
  | n :: rest =>
    match (processExt w n).2 with
    | .ok x => x :: okExts w rest
    | .error _ => okExts w rest

/-- The longest prefix of `names` every member of which `processExt`
handles successfully. -/
def okTake (w : ExtWorld) (names : List String) : List String :=
  names.takeWhile fun n => isOkE (processExt w n).2

theorem okEvents_mem (w : ExtWorld) (ev : Event) :
    ∀ names : List String, ev ∈ okEvents w names → ∃ k ∈ names, ev ∈ (processExt w k).1 := by
  intro names
  induction names with
  | nil => intro h; simp [okEvents] at h
  | cons m rest ih =>
    intro h
    rw [okEvents] at h
    rcases List.mem_append.mp h with hm | hm
    · exact ⟨m, List.mem_cons_self m rest, hm⟩
    · obtain ⟨k, hk, hk2⟩ := ih hm
      exact ⟨k, List.mem_cons_of_mem m hk, hk2⟩

theorem okExts_mem (w : ExtWorld) (x : Ext) :
    ∀ names : List String, x ∈ okExts w names → ∃ n ∈ names, (processExt w n).2 = .ok x := by
  intro names
  induction names with
  | nil => intro h; simp [okExts] at h
  | cons m rest ih =>
    intro h
    rw [okExts] at h
    split at h
    next y hy =>
      rcases List.mem_cons.mp h with hm | hm
      · exact ⟨m, List.mem_cons_self m rest, by rw [hy, hm]⟩
      · obtain ⟨n, hn, h2⟩ := ih hm
        exact ⟨n, List.mem_cons_of_mem m hn, h2⟩
    next e he =>
      obtain ⟨n, hn, h2⟩ := ih h
      exact ⟨n, List.mem_cons_of_mem m hn, h2⟩

theorem processExt_events_mem (w : ExtWorld) (k : String) (ev : Event)
    (h : ev ∈ (processExt w k).1) :
    ev = Event.extCreate k ∨ ev = Event.extStart k := by
  unfold processExt at h
  repeat' split at h
  all_goals simp_all

/-- The error forms `setupExtensions` can return for the extension
named `n`, each naming the extension or its declared type: missing
configuration, missing factory for the configured type, factory error,
nil instance, or `Start` error. -/
def errorNamesExtension (w : ExtWorld) (n : String) (e : Err) : Prop :=
  e = errExtNotConfigured n
  ∨ (∃ cfg, w.extConfigs.lookup n = some cfg ∧ e = errExtFactoryNotConfigured cfg.typ)
  ∨ (∃ c, e = errExtCreateFailed n c)
  ∨ e = errExtNil n
  ∨ (∃ c, e = errExtStartFailed n c)

theorem processExt_error_names (w : ExtWorld) (n : String) (e : Err)
    (h : (processExt w n).2 = .error e) : errorNamesExtension w n e := by
  unfold errorNamesExtension
  rcases hl : w.extConfigs.lookup n with _ | cfg
  · simp only [processExt, hl] at h
    exact Or.inl (Except.error.inj h).symm
  · simp only [processExt, hl] at h
    by_cases hf : w.factoryTypes.contains cfg.typ
    · rw [if_pos hf] at h
      rcases hc : cfg.createErr with _ | ce
      · rw [hc] at h
        by_cases hn : cfg.createNil
        · rw [if_pos hn] at h
          exact Or.inr (Or.inr (Or.inr (Or.inl (Except.error.inj h).symm)))
        · rw [if_neg hn] at h
          rcases hs : cfg.startErr with _ | se
          · rw [hs] at h
            simp at h
          · rw [hs] at h
            exact Or.inr (Or.inr (Or.inr (Or.inr ⟨se, (Except.error.inj h).symm⟩)))
      · rw [hc] at h
        exact Or.inr (Or.inr (Or.inl ⟨ce, (Except.error.inj h).symm⟩))
    · rw [if_neg hf] at h
      exact Or.inr (Or.inl ⟨cfg, rfl, (Except.error.inj h).symm⟩)

theorem setupExtensionsLoop_first_failure (w : ExtWorld) :
    ∀ (pre rest : List String) (n : String) (e : Err),
      (∀ m ∈ pre, isOkE (processExt w m).2 = true) →
      (processExt w n).2 = .error e →
      setupExtensionsLoop w (pre ++ n :: rest)
        = (okEvents w pre ++ (processExt w n).1, okExts w pre, some e) := by
  intro pre
  induction pre with
  | nil =>
    intro rest n e _ hfail
    rcases hp : processExt w n with ⟨evs, r⟩
    rw [hp] at hfail
    simp only [Prod.snd] at hfail
    subst hfail
    simp [setupExtensionsLoop, okEvents, okExts, hp]
  | cons m pre ih =>
    intro rest n e hok hfail
    rcases hp : processExt w m with ⟨evsm, rm⟩
    rcases rm with em | x
    · have hmok := hok m (List.mem_cons_self m pre)
      rw [hp] at hmok
      simp [isOkE] at hmok
    · have hrest := ih rest n e (fun k hk => hok k (List.mem_cons_of_mem m hk)) hfail
      have hstep : setupExtensionsLoop w (m :: (pre ++ n :: rest))
          = (evsm ++ (setupExtensionsLoop w (pre ++ n :: rest)).1,
             x :: (setupExtensionsLoop w (pre ++ n :: rest)).2.1,
             (setupExtensionsLoop w (pre ++ n :: rest)).2.2) := by
        simp [setupExtensionsLoop, hp]
      rw [List.cons_append, hstep, hrest, okEvents, okExts, hp]
      simp [List.append_assoc]

/-! ## C5: declaration-order processing, first-failure abort -/

/-- C5: when the service extension list splits as `pre ++ n :: rest`
with every extension of `pre` processed successfully and `n` the first
failing one, `setupExtensions` returns the error of `n` — one of the
five forms naming that extension or its type — retains exactly the
started prefix, and constructs or starts nothing after `n`. -/
theorem setupExtensions_first_failure (w : ExtWorld) (pre rest : List String)
    (n : String) (e : Err)
    (hsplit : w.serviceExtensions = pre ++ n :: rest)
    (hok : ∀ m ∈ pre, isOkE (processExt w m).2 = true)
    (hfail : (processExt w n).2 = .error e) :
    setupExtensions w
        = (okEvents w pre ++ (processExt w n).1, okExts w pre, some e)
    ∧ errorNamesExtension w n e
    ∧ (∀ m, m ∉ pre → m ≠ n →
        Event.extCreate m ∉ (setupExtensions w).1
        ∧ Event.extStart m ∉ (setupExtensions w).1) := by
  have hmain : setupExtensions w
      = (okEvents w pre ++ (processExt w n).1, okExts w pre, some e) := by
    rw [setupExtensions, hsplit]
    exact setupExtensionsLoop_first_failure w pre rest n e hok hfail
  refine ⟨hmain, processExt_error_names w n e hfail, ?_⟩
  intro m hm1 hm2
  rw [hmain]
  constructor
  · intro hmem
    rcases List.mem_append.mp hmem with hm | hm
    · obtain ⟨k, hk, hk2⟩ := okEvents_mem w _ pre hm
      rcases processExt_events_mem w k _ hk2 with hkk | hkk
      · rw [Event.extCreate.injEq] at hkk
        exact hm1 (hkk ▸ hk)
      · exact Event.noConfusion hkk
    · rcases processExt_events_mem w n _ hm with hkk | hkk
      · exact hm2 (Event.extCreate.injEq .. ▸ hkk)
      · exact Event.noConfusion hkk
  · intro hmem
    rcases List.mem_append.mp hmem with hm | hm
    · obtain ⟨k, hk, hk2⟩ := okEvents_mem w _ pre hm
      rcases processExt_events_mem w k _ hk2 with hkk | hkk
      · exact Event.noConfusion hkk
      · rw [Event.extStart.injEq] at hkk
        exact hm1 (hkk ▸ hk)
    · rcases processExt_events_mem w n _ hm with hkk | hkk
      · exact Event.noConfusion hkk
      · exact hm2 (Event.extStart.injEq .. ▸ hkk)

/-- A world whose service list declares `a`, `b`, `c`, where `a` is
fully configured and startable but `b` has no configuration entry. -/
def extW5 : ExtWorld :=
  { serviceExtensions := ["a", "b", "c"],
    extConfigs := [("a", extOkCfg)], factoryTypes := ["t1"] }

theorem setupExtensions_first_failure_witness :
    setupExtensions extW5
        = (okEvents extW5 ["a"] ++ (processExt extW5 "b").1, okExts extW5 ["a"],
           some (errExtNotConfigured "b"))
    ∧ errorNamesExtension extW5 "b" (errExtNotConfigured "b")
    ∧ (∀ m, m ∉ ["a"] → m ≠ "b" →
        Event.extCreate m ∉ (setupExtensions extW5).1
        ∧ Event.extStart m ∉ (setupExtensions extW5).1) :=
  setupExtensions_first_failure extW5 ["a"] ["c"] "b" (errExtNotConfigured "b")
    rfl (by decide) rfl

/-! ## Readiness-notification helpers -/

theorem notifyPipelineReady_all_ok :
    ∀ exts : List Ext, (∀ x ∈ exts, x.beh.isWatcher = true → x.beh.readyErr = none) →
      notifyPipelineReady exts
        = ((exts.filter fun x => x.beh.isWatcher).map fun x => Event.extReady x.name, none) := by
  intro exts
  induction exts with
  | nil => intro _; simp [notifyPipelineReady]
  | cons x rest ih =>
    intro hok
    have hrest := ih fun y hy => hok y (List.mem_cons_of_mem x hy)
    by_cases hw : x.beh.isWatcher = true
    · have hre : x.beh.readyErr = none := hok x (List.mem_cons_self x rest) hw
      rw [notifyPipelineReady, if_pos hw, hre, hrest]
      simp [List.filter_cons, hw]
    · rw [notifyPipelineReady, if_neg hw, hrest]
      simp [List.filter_cons, hw]

theorem notifyPipelineReady_first_fail :
    ∀ (pre : List Ext) (x : Ext) (post : List Ext) (e : Err),
      (∀ y ∈ pre, y.beh.isWatcher = true → y.beh.readyErr = none) →
      x.beh.isWatcher = true → x.beh.readyErr = some e →
      notifyPipelineReady (pre ++ x :: post)
        = (((pre.filter fun y => y.beh.isWatcher).map fun y => Event.extReady y.name)
             ++ [Event.extReady x.name],
           some (wrapErr (readyFailMsg x.name) e)) := by
  intro pre
  induction pre with
  | nil =>
    intro x post e _ hw he
    rw [List.nil_append, notifyPipelineReady, if_pos hw, he]
    simp
  | cons y pre ih =>
    intro x post e hok hw he
    have hrest := ih x post e (fun z hz => hok z (List.mem_cons_of_mem y hz)) hw he
    by_cases hyw : y.beh.isWatcher = true
    · have hye : y.beh.readyErr = none := hok y (List.mem_cons_self y pre) hyw
      rw [List.cons_append, notifyPipelineReady, if_pos hyw, hye, hrest]
      simp [List.filter_cons, hyw]
    · rw [List.cons_append, notifyPipelineReady, if_neg hyw, hrest]
      simp [List.filter_cons, hyw]

theorem notReadyLoop_events :
    ∀ l : List Ext, (notReadyLoop l).1
      = (l.filter fun x => x.beh.isWatcher).map fun x => Event.extNotReady x.name := by
  intro l
  induction l with
  | nil => simp [notReadyLoop]
  | cons x rest ih =>
    by_cases hw : x.beh.isWatcher = true
    · rcases hne : x.beh.notReadyErr with _ | e <;>
        simp [notReadyLoop, hw, hne, List.filter_cons, ih]
    · simp [notReadyLoop, hw, List.filter_cons, ih]

theorem notReadyLoop_errs_nil :
    ∀ l : List Ext, ((notReadyLoop l).2 = []
      ↔ ∀ x ∈ l, x.beh.isWatcher = true → x.beh.notReadyErr = none) := by
  intro l
  induction l with
  | nil => simp [notReadyLoop]
  | cons x rest ih =>
    by_cases hw : x.beh.isWatcher = true
    · rcases hne : x.beh.notReadyErr with _ | e
      · simp [notReadyLoop, hw, hne, ih]
      · simp [notReadyLoop, hw, hne]
    · have hstep : (notReadyLoop (x :: rest)).2 = (notReadyLoop rest).2 := by
        simp [notReadyLoop, hw]
      rw [hstep, ih]
      constructor
      · intro h y hy hyw
        rcases List.mem_cons.mp hy with rfl | hy2
        · exact absurd hyw hw
        · exact h y hy2 hyw
      · intro h y hy hyw
        exact h y (List.mem_cons_of_mem x hy) hyw

theorem shutdownExtLoop_events :
    ∀ l : List Ext, (shutdownExtLoop l).1 = l.map fun x => Event.extShutdown x.name := by
  intro l
  induction l with
  | nil => simp [shutdownExtLoop]
  | cons x rest ih =>
    rcases hse : x.beh.shutdownErr with _ | e <;>
      simp [shutdownExtLoop, hse, ih]

/-! ## C6: Ready in order with first-failure abort; NotReady in reverse, collecting -/

/-- C6: `Ready` is invoked once per watching extension in construction
order with the first failure aborting under an error naming that
extension, and `NotReady` is invoked once per watching extension in
reverse order with failures collected rather than short-circuiting:
the result is nil exactly when every watcher's `NotReady` succeeded. -/
theorem ready_notReady_protocol (exts : List Ext) :
    ((∀ x ∈ exts, x.beh.isWatcher = true → x.beh.readyErr = none) →
      notifyPipelineReady exts
        = ((exts.filter fun x => x.beh.isWatcher).map fun x => Event.extReady x.name, none))
    ∧ (∀ (pre : List Ext) (x : Ext) (post : List Ext) (e : Err),
        exts = pre ++ x :: post →
        (∀ y ∈ pre, y.beh.isWatcher = true → y.beh.readyErr = none) →
        x.beh.isWatcher = true → x.beh.readyErr = some e →
        notifyPipelineReady exts
          = (((pre.filter fun y => y.beh.isWatcher).map fun y => Event.extReady y.name)
               ++ [Event.extReady x.name],
             some (wrapErr (readyFailMsg x.name) e)))
    ∧ (notifyPipelineNotReady exts).1
        = ((exts.reverse.filter fun x => x.beh.isWatcher).map
            fun x => Event.extNotReady x.name)
    ∧ ((notifyPipelineNotReady exts).2 = none ↔
        ∀ x ∈ exts, x.beh.isWatcher = true → x.beh.notReadyErr = none) := by
  refine ⟨notifyPipelineReady_all_ok exts, ?_, ?_, ?_⟩
  · intro pre x post e hsplit hok hw he
    rw [hsplit]
    exact notifyPipelineReady_first_fail pre x post e hok hw he
  · show (notReadyLoop exts.reverse).1 = _
    exact notReadyLoop_events exts.reverse
  · show combineIfAny (notReadyLoop exts.reverse).2 = none ↔ _
    rw [combineIfAny_eq_none, notReadyLoop_errs_nil]
    constructor
    · intro h x hx
      exact h x (List.mem_reverse.mpr hx)
    · intro h x hx
      exact h x (List.mem_reverse.mp hx)

/-! ## C10: the retained extensions are exactly the started prefix -/

theorem setupExtensionsLoop_exts_eq_okTake (w : ExtWorld) :
    ∀ names : List String, (setupExtensionsLoop w names).2.1
      = okExts w (names.takeWhile fun n => isOkE (processExt w n).2) := by
  intro names
  induction names with
  | nil => simp [setupExtensionsLoop, okExts]
  | cons m rest ih =>
    rcases hp : processExt w m with ⟨evsm, rm⟩
    rcases rm with em | x
    · have hpred : (fun n => isOkE (processExt w n).2) m = false := by
        simp [hp, isOkE]
      rw [List.takeWhile_cons_of_neg (by simp [hpred])]
      simp [setupExtensionsLoop, hp, okExts]
    · have hpred : (fun n => isOkE (processExt w n).2) m = true := by
        simp [hp, isOkE]
      rw [List.takeWhile_cons_of_pos (by simp [hpred])]
      simp [setupExtensionsLoop, hp, okExts, ih]

/-- C10: after `setupExtensions`, `app.extensions` holds exactly the
extensions of the longest successfully processed prefix of the service
list, in declaration order — each retained extension comes from a
successful construction and `Start` — and the reverse-order
`shutdownExtensions` and `notifyPipelineNotReady` loops invoke
`Shutdown` / `NotReady` only on those retained extensions. -/
theorem app_extensions_started_invariant (w : ExtWorld) :
    (setupExtensions w).2.1 = okExts w (okTake w w.serviceExtensions)
    ∧ (∀ n ∈ okTake w w.serviceExtensions, isOkE (processExt w n).2 = true)
    ∧ (∀ x ∈ (setupExtensions w).2.1, ∃ n ∈ w.serviceExtensions, (processExt w n).2 = .ok x)
    ∧ (shutdownExtensions (setupExtensions w).2.1).1
        = ((setupExtensions w).2.1).reverse.map (fun x => Event.extShutdown x.name)
    ∧ (notifyPipelineNotReady (setupExtensions w).2.1).1
        = ((((setupExtensions w).2.1).reverse.filter fun x => x.beh.isWatcher).map
            fun x => Event.extNotReady x.name) := by
  have h1 : (setupExtensions w).2.1 = okExts w (okTake w w.serviceExtensions) :=
    setupExtensionsLoop_exts_eq_okTake w w.serviceExtensions
  refine ⟨h1, ?_, ?_, ?_, ?_⟩
  · intro n hn
    have h2 := List.mem_takeWhile_imp
      (show n ∈ List.takeWhile (fun k => isOkE (processExt w k).2) w.serviceExtensions from hn)
    simpa using h2
  · intro x hx
    rw [h1] at hx
    obtain ⟨n, hn, h2⟩ := okExts_mem w x _ hx
    exact ⟨n, List.takeWhile_subset _ hn, h2⟩
  · show (shutdownExtLoop ((setupExtensions w).2.1).reverse).1 = _
    exact shutdownExtLoop_events _
  · show (notReadyLoop ((setupExtensions w).2.1).reverse).1 = _
    exact notReadyLoop_events _

end OtelService
